import Mathlib

/-!
Verification of the ai-core service: a shallow embedding in Lean 4 of the
CVE knowledge cache, relevance matcher, context formatter, credential
rotator, token cache, AI-response parsing and dispatcher, translated from
the Go sources (cve.go, nvd.go, watson.go, ai/watson.go, dispatcher.go).

Modelling conventions:
- Go strings are modelled as Lean `String` / `List Char`.  The string
  operations used by the code (`strings.Contains`, `strings.Index`,
  `strings.Split`, `strings.ToLower`, `strings.TrimSpace`) act on ASCII
  data in every code path considered here; `ToLower` is modelled by the
  ASCII `Char.toLower` and `TrimSpace` by the Latin-1 white-space set.
- `float64` CVSS scores are tenths-valued (NVD publishes one decimal), so
  they are modelled as integer tenths; the 7.0 threshold becomes 70 and
  the `%.1f` rendering becomes integer quotient/remainder by 10.
- `time.Time` instants are modelled as integer nanoseconds since the Unix
  epoch; `time.Parse` for the RFC3339/RFC3339Nano layouts is implemented
  below (Go's parser accepts an optional fractional-second field for both
  layouts), and a failed parse yields Go's zero time (Jan 1, year 1 UTC).
- Network calls, the durable cache file and environment variables are
  external effects; they enter the embedding as explicit arguments
  (`Except`-valued fetch/exchange outcomes, an `Option`-valued file state,
  a write-success flag) and explicit result states, so every function here
  is the pure state transformer of the corresponding Go function.
-/

deriving instance DecidableEq for Except

/- ## String helpers (strings.ToLower / TrimSpace / Contains / Index / Split) -/

def lowerChars (l : List Char) : List Char := l.map Char.toLower

/-- Go `unicode.IsSpace` restricted to the Latin-1 range, which is the set
`strings.TrimSpace` strips for the data considered here. -/
def isGoSpace (c : Char) : Bool :=
  c.toNat = 9 || c.toNat = 10 || c.toNat = 11 || c.toNat = 12 ||
  c.toNat = 13 || c.toNat = 32 || c.toNat = 133 || c.toNat = 160

/-- `strings.TrimSpace`. -/
def trimSpace (s : String) : String :=
  String.mk (((((s.data).dropWhile isGoSpace).reverse).dropWhile isGoSpace).reverse)

/-- `strings.Contains hay needle`: first argument is the needle. -/
def containsSub (needle : List Char) : List Char → Bool
  | [] => needle.isEmpty
  | c :: t => needle.isPrefixOf (c :: t) || containsSub needle t

/-- `strings.Index hay needle` returning `none` for -1. -/
def indexOfSub (needle : List Char) : List Char → Option Nat
  | [] => if needle.isEmpty then some 0 else none
  | c :: t =>
    if needle.isPrefixOf (c :: t) then some 0
    else (indexOfSub needle t).map (fun n => n + 1)

/-- `strings.Split s sep` for a one-character separator. -/
def splitOnChar (sep : Char) : List Char → List (List Char)
  | [] => [[]]
  | c :: t =>
    match splitOnChar sep t with
    | [] => [[c]]
    | h :: r => if c = sep then [] :: h :: r else (c :: h) :: r

/- ## RFC3339 timestamp parsing (time.Parse / parsePublished in cve.go) -/

/-- Read exactly `n` decimal digits, most significant first. -/
def readDigitsAux (acc : Nat) : Nat → List Char → Option (Nat × List Char)
  | 0, cs => some (acc, cs)
  | k + 1, c :: cs =>
    if c.isDigit then readDigitsAux (acc * 10 + (c.toNat - 48)) k cs else none
  | _ + 1, [] => none

def readFixedNat (n : Nat) (cs : List Char) : Option (Nat × List Char) :=
  readDigitsAux 0 n cs

def expectChar (c : Char) : List Char → Option (List Char)
  | d :: cs => if d = c then some cs else none
  | [] => none

/-- Maximal run of leading digits. -/
def takeDigits : List Char → (List Char × List Char)
  | [] => ([], [])
  | c :: cs =>
    if c.isDigit then
      match takeDigits cs with
      | (ds, rest) => (c :: ds, rest)
    else ([], c :: cs)

def digitsToNat (ds : List Char) : Nat :=
  ds.foldl (fun acc c => acc * 10 + (c.toNat - 48)) 0

/-- Optional fractional-second field: `.` or `,` followed by 1–9 digits,
scaled to nanoseconds (Go's parser accepts this for both RFC3339 layouts
and rejects more than nine digits). -/
def readFrac : List Char → Option (Nat × List Char)
  | c :: cs =>
    if c = '.' || c = ',' then
      match takeDigits cs with
      | (ds, rest) =>
        if ds.length = 0 || ds.length > 9 then none
        else some (digitsToNat ds * 10 ^ (9 - ds.length), rest)
    else some (0, c :: cs)
  | [] => some (0, [])

/-- Zone field of layout `Z07:00`: `Z` or `±hh:mm`; result in seconds. -/
def readZone : List Char → Option (Int × List Char)
  | 'Z' :: cs => some (0, cs)
  | c :: cs =>
    if c = '+' || c = '-' then
      match readFixedNat 2 cs with
      | none => none
      | some (zh, cs1) =>
        match expectChar ':' cs1 with
        | none => none
        | some cs2 =>
          match readFixedNat 2 cs2 with
          | none => none
          | some (zm, cs3) =>
            if zh ≤ 23 && zm ≤ 59 then
              let secs : Int := (zh * 3600 + zm * 60 : Nat)
              some (if c = '+' then secs else -secs, cs3)
            else none
    else none
  | [] => none

def isLeapYear (y : Int) : Bool :=
  (y % 4 = 0 && y % 100 ≠ 0) || y % 400 = 0

def daysInMonth (y : Int) (m : Nat) : Nat :=
  if m = 2 then (if isLeapYear y then 29 else 28)
  else if m = 4 || m = 6 || m = 9 || m = 11 then 30
  else 31

/-- Days since 1970-01-01 of the civil date `(y, m, d)` (standard
days-from-civil algorithm, as used by Go's absolute-time conversion). -/
def daysFromCivil (y : Int) (m d : Nat) : Int :=
  let yy : Int := y - (if m ≤ 2 then 1 else 0)
  let era : Int := (if yy ≥ 0 then yy else yy - 399) / 400
  let yoe : Int := yy - era * 400
  let mp : Nat := (m + 9) % 12
  let doy : Int := ((153 * mp + 2) / 5 + d - 1 : Nat)
  let doe : Int := yoe * 365 + yoe / 4 - yoe / 100 + doy
  era * 146097 + doe - 719468

/-- `time.Parse` for the RFC3339/RFC3339Nano layouts: returns the parsed
instant in nanoseconds since the Unix epoch, or `none` on failure. -/
def parseRFC3339Nanos (s : String) : Option Int :=
  match readFixedNat 4 s.data with
  | none => none
  | some (year, r1) =>
    match expectChar '-' r1 with
    | none => none
    | some r2 =>
      match readFixedNat 2 r2 with
      | none => none
      | some (month, r3) =>
        match expectChar '-' r3 with
        | none => none
        | some r4 =>
          match readFixedNat 2 r4 with
          | none => none
          | some (day, r5) =>
            match expectChar 'T' r5 with
            | none => none
            | some r6 =>
              match readFixedNat 2 r6 with
              | none => none
              | some (hour, r7) =>
                match expectChar ':' r7 with
                | none => none
                | some r8 =>
                  match readFixedNat 2 r8 with
                  | none => none
                  | some (minute, r9) =>
                    match expectChar ':' r9 with
                    | none => none
                    | some r10 =>
                      match readFixedNat 2 r10 with
                      | none => none
                      | some (second, r11) =>
                        match readFrac r11 with
                        | none => none
                        | some (nanos, r12) =>
                          match readZone r12 with
                          | none => none
                          | some (offset, r13) =>
                            if r13 = [] then
                              if 1 ≤ month && month ≤ 12 && 1 ≤ day &&
                                 day ≤ daysInMonth (year : Int) month &&
                                 hour ≤ 23 && minute ≤ 59 && second ≤ 59 then
                                let secs : Int :=
                                  daysFromCivil (year : Int) month day * 86400 +
                                  (hour * 3600 + minute * 60 + second : Nat) - offset
                                some (secs * 1000000000 + (nanos : Int))
                              else none
                            else none

/-- Go's zero `time.Time` (Jan 1 of year 1, 00:00:00 UTC) as epoch nanos. -/
def zeroInstant : Int := daysFromCivil 1 1 1 * 86400 * 1000000000

/-- `parsePublished` (cve.go): try the RFC3339 layouts, fall back to the
zero time on failure, never erroring. -/
def parsePublishedNanos (s : String) : Int :=
  match parseRFC3339Nanos s with
  | some t => t
  | none => zeroInstant

/- ## CVE data model (cve.go) -/

/-- `CVE` (cve.go).  `CVSSTenths` models the tenths-valued `float64`
`CVSSScore` as integer tenths (9.8 ↦ 98, absent score ↦ 0). -/
structure CVE where
  ID : String
  Description : String
  Published : String
  CVSSTenths : Int
  Vendor : String
  Product : String
deriving DecidableEq, Repr

def pubNanos (c : CVE) : Int := parsePublishedNanos c.Published

/-- Non-strict "published no earlier than": the total comparator underlying
`sort.Slice(..., parsePublished(i).After(parsePublished(j)))`. -/
def pubGe (a b : CVE) : Prop := pubNanos b ≤ pubNanos a

instance : DecidableRel pubGe :=
  fun a b => inferInstanceAs (Decidable (pubNanos b ≤ pubNanos a))

instance : IsTotal CVE pubGe :=
  ⟨fun a b => le_total (pubNanos b) (pubNanos a)⟩

instance : IsTrans CVE pubGe :=
  ⟨fun _ _ _ hab hbc => le_trans hbc hab⟩

/-- The newest-first sort used by cve.go (`sort.Slice` with the `After`
comparator, modelled as a comparison sort for the same comparator). -/
def sortByPublishedDesc (items : List CVE) : List CVE :=
  List.insertionSort pubGe items

/- ## Network CVE filter (cve.go filterNetworkCVEs) -/

def networkVendors : List String :=
  ["cisco", "juniper", "fortinet", "mikrotik",
   "paloalto", "netgear", "dlink", "tplink",
   "ubiquiti", "arista"]

def lowerStr (s : String) : String := String.mk (lowerChars s.data)

/-- `filterNetworkCVEs` (cve.go): keep records scoring ≥ 7.0 whose
lower-cased vendor is exactly one of the allow-listed vendors. -/
def filterNetworkCVEs (items : List CVE) : List CVE :=
  items.filter (fun c => decide (70 ≤ c.CVSSTenths) &&
    networkVendors.contains (lowerStr c.Vendor))

/- ## Relevance matcher (cve.go FindRelevantCVEs) -/

/-- The match test of `FindRelevantCVEs`: the lower-cased event text
contains the lower-cased vendor or the lower-cased product as a
substring. -/
def cveMatches (textLower : List Char) (c : CVE) : Bool :=
  containsSub (lowerChars c.Vendor.data) textLower ||
  containsSub (lowerChars c.Product.data) textLower

/-- `FindRelevantCVEs` (cve.go): `items` is the defensive copy returned by
`GetRecentCVEs()` (the in-memory snapshot). -/
def FindRelevantCVEs (items : List CVE) (text : String) : List CVE :=
  if items = [] then []
  else
    let t := lowerChars text.data
    let result := items.filter (cveMatches t)
    if result = [] then
      let sorted := sortByPublishedDesc items
      if sorted.length > 5 then sorted.take 5 else sorted
    else
      if result.length > 5 then result.take 5 else result

/- ## Context formatter (cve.go BuildCVERagBlockFromList, watson.go
     buildRagFromCVEs) -/

/-- `fmt.Sprintf("%.1f", score)` on a tenths-valued score. -/
def formatScoreTenths (t : Int) : String :=
  toString (t / 10) ++ "." ++ toString (t % 10)

/-- One record line of the RAG block: `ID - Vendor/Product - CVSS x.y\n`,
with the `N/A` sentinel for a zero/absent score. -/
def renderCVELine (c : CVE) : String :=
  c.ID ++ " - " ++ c.Vendor ++ "/" ++ c.Product ++ " - CVSS " ++
  (if c.CVSSTenths > 0 then formatScoreTenths c.CVSSTenths else "N/A") ++ "\n"

/-- The record lines emitted by `BuildCVERagBlockFromList`: sort newest
first, truncate to 5, render each record. -/
def ragBlockLines (items : List CVE) : List String :=
  let sorted := sortByPublishedDesc items
  let top := if sorted.length > 5 then sorted.take 5 else sorted
  top.map renderCVELine

/-- `BuildCVERagBlockFromList` (cve.go). -/
def BuildCVERagBlockFromList (items : List CVE) : String :=
  if items = [] then ""
  else "<Rag>\n" ++ String.join (ragBlockLines items) ++ "</Rag>\n"

/-- The record lines emitted by `buildRagFromCVEs` (watson.go): truncate
to 5 in caller order, no sort. -/
def buildRagLines (cves : List CVE) : List String :=
  (if cves.length > 5 then cves.take 5 else cves).map renderCVELine

/-- `buildRagFromCVEs` (watson.go). -/
def buildRagFromCVEs (cves : List CVE) : String :=
  if cves = [] then ""
  else "<Rag>\n" ++ String.join (buildRagLines cves) ++ "</Rag>\n"

/- ## CPE vendor/product extraction (nvd.go extractVendorProduct) -/

/-- `extractVendorProduct` (nvd.go), acting on the serialized
configuration text (the function body after `json.Marshal`): find the
first `cpe:2.3:` occurrence, split the tail on `:`, and take fields 3 and
4 as vendor and product; leave the record unchanged when no CPE string is
present. -/
def extractVendorProduct (item : CVE) (cfgText : String) : CVE :=
  match indexOfSub ("cpe:2.3:".data) cfgText.data with
  | none => item
  | some idx =>
    let cpe := cfgText.data.drop idx
    let parts := splitOnChar ':' cpe
    if parts.length ≥ 5 then
      { item with Vendor := String.mk (parts.getD 3 [])
                  Product := String.mk (parts.getD 4 []) }
    else item

/- ## Vulnerability store refresh (cve.go EnsureRecentNetworkCVEs,
     loadCacheFromFile, saveCacheToFile) -/

/-- `cveCacheFile` (cve.go); the timestamp in epoch seconds. -/
structure cveCacheFile where
  Timestamp : Int
  CVEs : List CVE
deriving DecidableEq, Repr

/-- 15 minutes, in seconds. -/
def freshnessWindow : Int := 15 * 60

/-- Result state of one `EnsureRecentNetworkCVEs` call: the returned
error value, the durable cache file after the call (`none` = missing or
corrupt, exactly the states `loadCacheFromFile` reports as an error), the
in-memory `recentCVEs` snapshot after the call, and whether the remote
feed was hit. -/
structure RefreshOutcome where
  result : Except String Unit
  file : Option cveCacheFile
  mem : List CVE
  fetched : Bool
deriving DecidableEq, Repr

/-- `EnsureRecentNetworkCVEs` (cve.go) as a state transformer.  `fetch` is
the outcome of `fetchRecentCVEsFromNVD(7)`; `writeOk` tells whether the
ignored-error `saveCacheToFile` write physically succeeded (on failure the
durable file keeps its previous state). -/
def EnsureRecentNetworkCVEs (file : Option cveCacheFile) (mem : List CVE)
    (now : Int) (fetch : Except String (List CVE)) (writeOk : Bool) :
    RefreshOutcome :=
  match file with
  | some cache =>
    if now - cache.Timestamp < freshnessWindow then
      ⟨Except.ok (), file, cache.CVEs, false⟩
    else
      match fetch with
      | Except.error e => ⟨Except.error e, file, mem, true⟩
      | Except.ok items =>
        let f0 := filterNetworkCVEs items
        let filtered := if f0 = [] then items else f0
        ⟨Except.ok (), if writeOk then some ⟨now, filtered⟩ else file,
         filtered, true⟩
  | none =>
    match fetch with
    | Except.error e => ⟨Except.error e, file, mem, true⟩
    | Except.ok items =>
      let f0 := filterNetworkCVEs items
      let filtered := if f0 = [] then items else f0
      ⟨Except.ok (), if writeOk then some ⟨now, filtered⟩ else file,
       filtered, true⟩

/- ## IAM token cache (watson.go getIAMToken, ai/watson.go getIAMToken) -/

/-- `tokenEntry` (watson.go): bearer token plus expiry instant (epoch
seconds). -/
structure TokenEntry where
  token : String
  expiry : Int
deriving DecidableEq, Repr

/-- Result state of one `getIAMToken` call: the returned token or error,
the token cache after the call, and whether the identity service was
hit. -/
structure TokenFetchOutcome where
  result : Except String String
  cache : List (String × TokenEntry)
  networkCalled : Bool
deriving DecidableEq, Repr

/-- `getIAMToken` (watson.go / ai/watson.go) as a state transformer.  The
Go `map[string]tokenEntry` is modelled as an association list whose most
recent binding wins (`List.lookup`); `exchange` is the outcome of the
token-exchange POST, carrying the issued token and `expires_in`
seconds.  A fresh entry applies the 60-second safety margin. -/
def getIAMToken (cache : List (String × TokenEntry)) (now : Int)
    (apiKey : String) (exchange : Except String (String × Int)) :
    TokenFetchOutcome :=
  let fresh : TokenFetchOutcome :=
    match exchange with
    | Except.error e => ⟨Except.error e, cache, true⟩
    | Except.ok (tok, expiresIn) =>
      ⟨Except.ok tok,
       (apiKey, ⟨tok, now + (expiresIn - 60)⟩) :: cache, true⟩
  match List.lookup apiKey cache with
  | some entry =>
    if now < entry.expiry then ⟨Except.ok entry.token, cache, false⟩
    else fresh
  | none => fresh

/- ## API key rotation (watson.go getNextAPIKey) -/

/-- `getNextAPIKey` (watson.go) as a state transformer over the package
state `(apiKeys, keyIndex)`; `env` is `WATSONX_API_KEYS`.  On success it
returns the dispensed (trimmed) key together with the pool and cursor
after the call. -/
def getNextAPIKey (apiKeys : List String) (keyIndex : Nat) (env : String) :
    Except String (String × List String × Nat) :=
  let pool :=
    if apiKeys.isEmpty then
      if env = "" then [] else (splitOnChar ',' env.data).map String.mk
    else apiKeys
  if pool.isEmpty then Except.error ("WATSONX_API_KEYS not set")
  else
    Except.ok (trimSpace ((pool.getD keyIndex) ""), pool,
               (keyIndex + 1) % pool.length)

/-- The keys dispensed by `n` consecutive `getNextAPIKey` calls starting
from an already initialized pool (empty on a rotation failure). -/
def rotationKeys (pool : List String) (i : Nat) : Nat → List String
  | 0 => []
  | n + 1 =>
    match (getNextAPIKey pool i) "" with
    | Except.error _ => []
    | Except.ok (k, pool1, i1) => k :: rotationKeys pool1 i1 n

/- ## Model output parsing (watson.go extractFirstJSON / CallWatsonAI,
     ai/watson.go parseResponse) -/

/-- The brace-depth scan of `extractFirstJSON`, started at the first `{`:
returns the prefix up to the first point where the depth returns to zero,
or `none` if the braces never balance. -/
def braceScan (braces : Int) (acc : List Char) : List Char → Option (List Char)
  | [] => none
  | c :: rest =>
    if c = '{' then braceScan (braces + 1) (acc ++ [c]) rest
    else if c = '}' then
      if braces - 1 = 0 then some (acc ++ [c])
      else braceScan (braces - 1) (acc ++ [c]) rest
    else braceScan braces (acc ++ [c]) rest

/-- Drop everything before the first `{` (none if there is no `{`). -/
def dropToBrace : List Char → Option (List Char)
  | [] => none
  | c :: rest => if c = '{' then some (c :: rest) else dropToBrace rest

/-- `extractFirstJSON` (watson.go and ai/watson.go, identical bodies):
the first syntactically balanced `{...}` substring, or `""`. -/
def extractFirstJSON (text : String) : String :=
  match dropToBrace text.data with
  | none => ""
  | some tail =>
    match braceScan 0 [] tail with
    | some sub => String.mk sub
    | none => ""

/-- `UnifiedResponse` (the Verdict shape of package main). -/
structure UnifiedResponse where
  Severity : String
  Explanation : String
  RecommendedAction : String
deriving DecidableEq, Repr

/-- `AIResponse` (ai/watson.go), with its extra optional confidence
field (zero when absent). -/
structure AIResponse where
  Severity : String
  Explanation : String
  RecommendedAction : String
  Confidence : Int
deriving DecidableEq, Repr

/-- The response-parsing tail of `CallWatsonAI` (watson.go, after the
generated text has been obtained): extract the first balanced JSON
object; on no object, degrade with the whitespace-trimmed raw text; on a
decode failure (`decode` models `json.Unmarshal` into
`UnifiedResponse`), degrade with the extracted text; both degraded
returns are successful.  On a successful decode return the decoded
verdict. -/
def parseWatsonOutput (decode : String → Option UnifiedResponse)
    (raw : String) : UnifiedResponse :=
  let cleanJSON := extractFirstJSON raw
  if cleanJSON = "" then
    ⟨"unknown", trimSpace raw, "Manual review required"⟩
  else
    match decode cleanJSON with
    | none => ⟨"unknown", cleanJSON, "Manual review required"⟩
    | some ai => ai

/-- `parseResponse` (ai/watson.go): same shape, but the degraded
explanation is the raw text verbatim (no trimming) and the result is
returned through the `(value, error)` pair, always successfully. -/
def parseResponse (decode : String → Option AIResponse) (text : String) :
    Except String AIResponse :=
  let cleanJSON := extractFirstJSON text
  if cleanJSON = "" then
    Except.ok ⟨"unknown", text, "Manual review required", 0⟩
  else
    match decode cleanJSON with
    | none => Except.ok ⟨"unknown", cleanJSON, "Manual review required", 0⟩
    | some response => Except.ok response

/- ## Dispatcher (dispatcher.go DispatchEvent) -/

/-- `Event` (the inbound request payload). -/
structure Event where
  type : String
  message : String
deriving DecidableEq, Repr

/-- `DispatchEvent` (dispatcher.go): the AI call
`CallWatsonAI(event, FindRelevantCVEs(event.Message))` is a network
effect, so its outcome enters as the `aiResult` argument; the dispatcher
absorbs any error into a degraded verdict and otherwise forwards the
response.  The return type records that the caller can never observe a
hard failure. -/
def DispatchEvent (event : Event)
    (aiResult : Except String UnifiedResponse) : UnifiedResponse :=
  match aiResult with
  | Except.error err => ⟨"unknown", err, "Check logs"⟩
  | Except.ok response => response

/-- Modelled from the spec's words (§4.3), for comparison with
`ragBlockLines`: the spec says Render "truncates the input to at most 5
records (by caller-supplied order ...)", i.e. renders the first
min(5, length) input records in the order given, without reordering. -/
def ragBlockLinesSpecOrder (items : List CVE) : List String :=
  (items.take 5).map renderCVELine

/- ## Theorems -/

/-- C1: For every event and every failure returned by the AI client call,
`DispatchEvent` returns a degraded Verdict with severity `unknown`,
explanation carrying the failure detail (`err.Error()`), and recommended
action "Check logs", never propagating the error; and for every event and
every AI-call outcome it returns a well-formed `UnifiedResponse` (the
return type is total — a success is forwarded unchanged, a failure is
absorbed), so callers never see a hard failure. -/
theorem dispatchEvent_absorbs_ai_failures (event : Event) (err : String)
    (response : UnifiedResponse) :
    DispatchEvent event (Except.error err) =
      ⟨"unknown", err, "Check logs"⟩
    ∧ DispatchEvent event (Except.ok response) = response :=
  ⟨rfl, rfl⟩

/-- C4: When the remote feed fetch errors on the refresh path (the
persisted snapshot is missing/corrupt or stale, so the fetch is
attempted), `EnsureRecentNetworkCVEs` returns exactly the fetch error and
leaves both the in-memory snapshot and the durable cache file completely
unchanged: stale-but-serving atomicity. -/
theorem ensureRecent_fetch_error_atomic (file : Option cveCacheFile)
    (mem : List CVE) (now : Int) (e : String) (writeOk : Bool)
    (hstale : ∀ c, file = some c → freshnessWindow ≤ now - c.Timestamp) :
    EnsureRecentNetworkCVEs file mem now (Except.error e) writeOk =
      ⟨Except.error e, file, mem, true⟩ := by
  cases file with
  | none => rfl
  | some c =>
    have h := hstale c rfl
    simp [EnsureRecentNetworkCVEs, not_lt.mpr h]

theorem ensureRecent_fetch_error_atomic_witness :
    EnsureRecentNetworkCVEs none [] 1000 (Except.error ("feed down")) true =
      ⟨Except.error ("feed down"), none, [], true⟩ :=
  ensureRecent_fetch_error_atomic none [] 1000 ("feed down") true
    (fun _ h => Option.noConfusion h)

/-- C10: Persistence failures during refresh are silently discarded:
`saveCacheToFile` ignores both the marshalling and the write error, so
with a stale-or-missing persisted snapshot and a successful feed fetch,
`EnsureRecentNetworkCVEs` still installs the (filtered, or unfiltered as
fallback) records into the in-memory snapshot and returns success even
though the durable file is left in its previous state (`writeOk = false`);
consequently a subsequent call — even within the freshness window — finds
no fresh persisted snapshot and hits the network again instead of
short-circuiting. -/
theorem saveCache_failure_silent (file : Option cveCacheFile)
    (mem : List CVE) (now now2 : Int) (items : List CVE)
    (fetch2 : Except String (List CVE)) (writeOk2 : Bool)
    (hstale : ∀ c, file = some c → freshnessWindow ≤ now - c.Timestamp)
    (hle : now ≤ now2) :
    (EnsureRecentNetworkCVEs file mem now (Except.ok items) false).result =
      Except.ok ()
    ∧ (EnsureRecentNetworkCVEs file mem now (Except.ok items) false).file =
      file
    ∧ (EnsureRecentNetworkCVEs file mem now (Except.ok items) false).mem =
      (if filterNetworkCVEs items = [] then items else filterNetworkCVEs items)
    ∧ (EnsureRecentNetworkCVEs
        ((EnsureRecentNetworkCVEs file mem now (Except.ok items) false).file)
        ((EnsureRecentNetworkCVEs file mem now (Except.ok items) false).mem)
        now2 fetch2 writeOk2).fetched = true := by
  cases file with
  | none =>
    refine ⟨rfl, rfl, rfl, ?_⟩
    show (EnsureRecentNetworkCVEs none _ now2 fetch2 writeOk2).fetched = true
    cases fetch2 <;> rfl
  | some c =>
    have h := not_lt.mpr (hstale c rfl)
    have h2 : ¬ (now2 - c.Timestamp < freshnessWindow) := by
      have := hstale c rfl
      omega
    refine ⟨?_, ?_, ?_, ?_⟩ <;>
      simp [EnsureRecentNetworkCVEs, h, h2] <;> cases fetch2 <;> rfl

/-- C3: For every API key with a cached token entry whose expiry is still
in the future, `getIAMToken` returns that cached token without a
token-exchange network call and without touching the cache (first
conjunct); and it never serves a cached entry at or past its expiry
boundary — whenever no exchange happened, the served entry satisfied
`now < expiry` strictly, so on an expired (or boundary) entry a fresh
exchange is performed instead (second conjunct). -/
theorem getIAMToken_cache_semantics (cache : List (String × TokenEntry))
    (now : Int) (apiKey : String) (exchange : Except String (String × Int)) :
    (∀ e, List.lookup apiKey cache = some e → now < e.expiry →
       getIAMToken cache now apiKey exchange =
         ⟨Except.ok e.token, cache, false⟩)
    ∧ ((getIAMToken cache now apiKey exchange).networkCalled = false →
       ∃ e, List.lookup apiKey cache = some e ∧ now < e.expiry) := by
  constructor
  · intro e he hlt
    simp [getIAMToken, he, hlt]
  · intro h
    cases he : List.lookup apiKey cache with
    | none =>
      exfalso
      cases exchange <;> simp [getIAMToken, he] at h
    | some e =>
      by_cases hlt : now < e.expiry
      · exact ⟨e, rfl, hlt⟩
      · exfalso
        cases exchange <;> simp [getIAMToken, he, hlt] at h

theorem getIAMToken_cache_semantics_witness :
    List.lookup ("k1") [(("k1" : String), (⟨"tok", 100⟩ : TokenEntry))] =
      some ⟨"tok", 100⟩
    ∧ (50 : Int) < 100
    ∧ getIAMToken [("k1", ⟨"tok", 100⟩)] 50 ("k1") (Except.error ("down")) =
        ⟨Except.ok ("tok"), [("k1", ⟨"tok", 100⟩)], false⟩ :=
  ⟨by decide, by decide,
   (getIAMToken_cache_semantics [("k1", ⟨"tok", 100⟩)] 50 ("k1")
      (Except.error ("down"))).1 ⟨"tok", 100⟩ (by decide) (by decide)⟩

/-- C2 counterexample: the claim says the degraded no-JSON Verdict carries
an explanation "equal to the raw text"; but `CallWatsonAI` (watson.go)
builds it from `strings.TrimSpace(raw)`, so for the brace-free generated
text `" x "` the explanation is `"x"`, not the raw text `" x "`. -/
theorem parse_explanation_raw_counterexample :
    extractFirstJSON (" x ") = ""
    ∧ parseWatsonOutput (fun _ => none) (" x ") =
        ⟨"unknown", "x", "Manual review required"⟩
    ∧ "x" ≠ " x " :=
  ⟨rfl, rfl, by decide⟩

/-- C2 (amended): for every generated model text in which no balanced
JSON object is found, or whose extracted object fails to decode into the
Verdict shape, response parsing returns successfully (no error) a
degraded Verdict with severity `unknown` and recommended action
"Manual review required"; the explanation is the whitespace-TRIMMED raw
text in `CallWatsonAI` (watson.go) and the raw text verbatim in
`parseResponse` (ai/watson.go) for the no-JSON case, and the extracted
text in the decode-failure case in both. -/
theorem parse_degraded_amended (dm : String → Option UnifiedResponse)
    (da : String → Option AIResponse) (raw : String) (s : String) :
    (extractFirstJSON raw = "" →
       parseWatsonOutput dm raw =
         ⟨"unknown", trimSpace raw, "Manual review required"⟩
       ∧ parseResponse da raw =
         Except.ok ⟨"unknown", raw, "Manual review required", 0⟩)
    ∧ (extractFirstJSON raw = s → s ≠ "" → dm s = none →
       parseWatsonOutput dm raw = ⟨"unknown", s, "Manual review required"⟩)
    ∧ (extractFirstJSON raw = s → s ≠ "" → da s = none →
       parseResponse da raw =
         Except.ok ⟨"unknown", s, "Manual review required", 0⟩) := by
  refine ⟨?_, ?_, ?_⟩
  · intro h
    constructor <;> simp [parseWatsonOutput, parseResponse, h]
  · intro he hne hd
    simp [parseWatsonOutput, he, hne, hd]
  · intro he hne hd
    simp [parseResponse, he, hne, hd]

theorem parse_degraded_amended_witness :
    parseWatsonOutput (fun _ => none) ("pre {bad json} post") =
      ⟨"unknown", "{bad json}", "Manual review required"⟩
    ∧ parseResponse (fun _ => none) ("no object here") =
      Except.ok ⟨"unknown", "no object here", "Manual review required", 0⟩ :=
  ⟨(parse_degraded_amended (fun _ => none) (fun _ => none)
      ("pre {bad json} post") ("{bad json}")).2.1 (by decide) (by decide) rfl,
   ((parse_degraded_amended (fun _ => none) (fun _ => none)
      ("no object here") ("")).1 (by decide)).2⟩

/-- C7: the rendered context block is bounded: `BuildCVERagBlockFromList`
(cve.go) emits exactly 5 record lines between the `<Rag>`/`</Rag>` markers
whenever the input holds more than 5 records, emits the empty string for
an empty input, and never emits more than 5 record lines; the same holds
for `buildRagFromCVEs` (watson.go). -/
theorem ragBlock_line_bounds (items : List CVE) (cves : List CVE) :
    (ragBlockLines items).length ≤ 5
    ∧ (5 < items.length → (ragBlockLines items).length = 5)
    ∧ BuildCVERagBlockFromList [] = ""
    ∧ (buildRagLines cves).length ≤ 5
    ∧ (5 < cves.length → (buildRagLines cves).length = 5)
    ∧ buildRagFromCVEs [] = "" := by
  have hsort : (sortByPublishedDesc items).length = items.length :=
    List.length_insertionSort pubGe items
  refine ⟨?_, ?_, rfl, ?_, ?_, rfl⟩
  · unfold ragBlockLines
    by_cases h : (sortByPublishedDesc items).length > 5 <;>
      simp [h, List.length_take] <;> omega
  · intro h5
    unfold ragBlockLines
    have : (sortByPublishedDesc items).length > 5 := by omega
    simp [this, List.length_take]
    omega
  · unfold buildRagLines
    by_cases h : cves.length > 5 <;> simp [h, List.length_take] <;> omega
  · intro h5
    unfold buildRagLines
    have : cves.length > 5 := by omega
    simp [this, List.length_take]
    omega

theorem ragBlock_line_bounds_witness :
    5 <
      ([⟨"A", "", "", 10, "v", "p"⟩, ⟨"B", "", "", 0, "v", "p"⟩,
        ⟨"C", "", "", 0, "v", "p"⟩, ⟨"D", "", "", 0, "v", "p"⟩,
        ⟨"E", "", "", 0, "v", "p"⟩, ⟨"F", "", "", 0, "v", "p"⟩] :
        List CVE).length
    ∧ (ragBlockLines
        [⟨"A", "", "", 10, "v", "p"⟩, ⟨"B", "", "", 0, "v", "p"⟩,
         ⟨"C", "", "", 0, "v", "p"⟩, ⟨"D", "", "", 0, "v", "p"⟩,
         ⟨"E", "", "", 0, "v", "p"⟩, ⟨"F", "", "", 0, "v", "p"⟩]).length = 5 :=
  ⟨by decide,
   (ragBlock_line_bounds
      [⟨"A", "", "", 10, "v", "p"⟩, ⟨"B", "", "", 0, "v", "p"⟩,
       ⟨"C", "", "", 0, "v", "p"⟩, ⟨"D", "", "", 0, "v", "p"⟩,
       ⟨"E", "", "", 0, "v", "p"⟩, ⟨"F", "", "", 0, "v", "p"⟩] []).2.1
     (by decide)⟩

/-- C8 counterexample: the claim says `BuildCVERagBlockFromList` renders
the first min(5, length) input records in caller-supplied order without
reordering; but the function sorts newest-first before truncating, so for
a two-record input whose second record has the later publication date the
rendered lines differ from the claimed caller-order rendering
(`ragBlockLinesSpecOrder`, built from the spec's words). -/
theorem ragBlock_caller_order_counterexample :
    ragBlockLines
      [⟨"CVE-OLD", "", "2023-01-02T00:00:00Z", 10, "v1", "p1"⟩,
       ⟨"CVE-NEW", "", "2024-01-02T00:00:00Z", 20, "v2", "p2"⟩] ≠
    ragBlockLinesSpecOrder
      [⟨"CVE-OLD", "", "2023-01-02T00:00:00Z", 10, "v1", "p1"⟩,
       ⟨"CVE-NEW", "", "2024-01-02T00:00:00Z", 20, "v2", "p2"⟩] := by
  decide

/-- C8 (amended): `BuildCVERagBlockFromList` first sorts its input by
publication timestamp, newest first (the sorted list is a permutation of
the input, ordered by non-increasing parsed publication instant), and
then truncates: the records rendered are exactly the first
min(5, length) elements of the SORTED list, not of the caller-supplied
order. -/
theorem ragBlock_sorts_then_truncates (items : List CVE) :
    ragBlockLines items =
      ((sortByPublishedDesc items).take 5).map renderCVELine
    ∧ (ragBlockLines items).length = min 5 items.length
    ∧ List.Perm (sortByPublishedDesc items) items
    ∧ List.Sorted pubGe (sortByPublishedDesc items) := by
  have hsort : (sortByPublishedDesc items).length = items.length :=
    List.length_insertionSort pubGe items
  refine ⟨?_, ?_, List.perm_insertionSort pubGe items,
          List.sorted_insertionSort pubGe items⟩
  · by_cases h : (sortByPublishedDesc items).length > 5
    · simp [ragBlockLines, h]
    · have hle : (sortByPublishedDesc items).length ≤ 5 := by omega
      simp [ragBlockLines, h, List.take_of_length_le hle]
  · unfold ragBlockLines
    by_cases h : (sortByPublishedDesc items).length > 5 <;>
      simp [h, List.length_take] <;> omega

/-- C5: `FindRelevantCVEs` (cve.go) returns at most 5 records for every
cache state and event text; when zero cached records have a vendor or
product substring-matching the event text it returns the first 5 records
of the newest-first sort of the cache (the 5 most-recently-published, or
all of them when the cache holds fewer than 5 — the sorted list is a
permutation of the cache ordered by non-increasing parsed publication
instant); and its result is empty exactly when the cache itself is
empty. -/
theorem findRelevantCVEs_cap_fallback_empty (items : List CVE)
    (text : String) :
    (FindRelevantCVEs items text).length ≤ 5
    ∧ (items.filter (cveMatches (lowerChars text.data)) = [] →
        FindRelevantCVEs items text = (sortByPublishedDesc items).take 5
        ∧ (FindRelevantCVEs items text).length = min 5 items.length)
    ∧ (FindRelevantCVEs items text = [] ↔ items = [])
    ∧ List.Perm (sortByPublishedDesc items) items
    ∧ List.Sorted pubGe (sortByPublishedDesc items) := by
  have hsort : (sortByPublishedDesc items).length = items.length :=
    List.length_insertionSort pubGe items
  by_cases hitems : items = []
  · subst hitems
    refine ⟨?_, ?_, ?_, ?_, ?_⟩ <;>
      simp [FindRelevantCVEs, sortByPublishedDesc, List.Sorted]
  · have hlen : 0 < items.length := List.length_pos.mpr hitems
    by_cases hres : items.filter (cveMatches (lowerChars text.data)) = []
    · have hval : FindRelevantCVEs items text =
          (sortByPublishedDesc items).take 5 := by
        by_cases h5 : (sortByPublishedDesc items).length > 5
        · simp [FindRelevantCVEs, hitems, hres, h5]
        · have hle : (sortByPublishedDesc items).length ≤ 5 := by omega
          simp [FindRelevantCVEs, hitems, hres, h5,
                List.take_of_length_le hle]
      have hlength : (FindRelevantCVEs items text).length =
          min 5 items.length := by
        rw [hval, List.length_take, hsort]
      refine ⟨?_, fun _ => ⟨hval, hlength⟩, ?_,
              List.perm_insertionSort pubGe items,
              List.sorted_insertionSort pubGe items⟩
      · rw [hlength]; omega
      · constructor
        · intro hnil
          exfalso
          have : (FindRelevantCVEs items text).length = 0 := by
            rw [hnil]; rfl
          rw [hlength] at this
          omega
        · intro h; exact absurd h hitems
    · have hlenf : 0 <
          (items.filter (cveMatches (lowerChars text.data))).length :=
        List.length_pos.mpr hres
      have hval : FindRelevantCVEs items text =
          (items.filter (cveMatches (lowerChars text.data))).take 5 := by
        by_cases h5 :
            (items.filter (cveMatches (lowerChars text.data))).length > 5
        · simp [FindRelevantCVEs, hitems, hres, h5]
        · have hle :
              (items.filter (cveMatches (lowerChars text.data))).length ≤ 5 :=
            by omega
          simp [FindRelevantCVEs, hitems, hres, h5,
                List.take_of_length_le hle]
      have hlength : (FindRelevantCVEs items text).length =
          min 5 (items.filter (cveMatches (lowerChars text.data))).length := by
        rw [hval, List.length_take]
      refine ⟨?_, fun h => absurd h hres, ?_,
              List.perm_insertionSort pubGe items,
              List.sorted_insertionSort pubGe items⟩
      · rw [hlength]; omega
      · constructor
        · intro hnil
          exfalso
          have : (FindRelevantCVEs items text).length = 0 := by
            rw [hnil]; rfl
          rw [hlength] at this
          omega
        · intro h; exact absurd h hitems

theorem findRelevantCVEs_cap_fallback_empty_witness :
    ([(⟨"A", "", "2023-01-02T00:00:00Z", 10, "acme", "router"⟩ : CVE),
      ⟨"B", "", "2024-01-02T00:00:00Z", 20, "initech", "switch"⟩] :
      List CVE).filter
        (cveMatches (lowerChars ("nothing relevant").data)) = []
    ∧ FindRelevantCVEs
        [⟨"A", "", "2023-01-02T00:00:00Z", 10, "acme", "router"⟩,
         ⟨"B", "", "2024-01-02T00:00:00Z", 20, "initech", "switch"⟩]
        ("nothing relevant") =
      (sortByPublishedDesc
        [⟨"A", "", "2023-01-02T00:00:00Z", 10, "acme", "router"⟩,
         ⟨"B", "", "2024-01-02T00:00:00Z", 20, "initech", "switch"⟩]).take 5
    ∧ (FindRelevantCVEs
        [⟨"A", "", "2023-01-02T00:00:00Z", 10, "acme", "router"⟩,
         ⟨"B", "", "2024-01-02T00:00:00Z", 20, "initech", "switch"⟩]
        ("nothing relevant")).length =
      min 5
        ([(⟨"A", "", "2023-01-02T00:00:00Z", 10, "acme", "router"⟩ : CVE),
          ⟨"B", "", "2024-01-02T00:00:00Z", 20, "initech", "switch"⟩] :
          List CVE).length :=
  ⟨by decide,
   (findRelevantCVEs_cap_fallback_empty
      [⟨"A", "", "2023-01-02T00:00:00Z", 10, "acme", "router"⟩,
       ⟨"B", "", "2024-01-02T00:00:00Z", 20, "initech", "switch"⟩]
      ("nothing relevant")).2.1 (by decide)⟩

/-- `strings.Contains` with an empty needle is true on every haystack. -/
theorem containsSub_nil_needle (hay : List Char) : containsSub [] hay = true := by
  cases hay <;> simp [containsSub, List.isPrefixOf]

/-- C9: a cached record whose vendor (or product) is the empty string
substring-matches every event text, because containment of the empty
string always holds; hence whenever the cache holds such a record the
zero-match recency-fallback branch of `FindRelevantCVEs` is unreachable
(the match list is nonempty and the result is its 5-capped prefix, never
empty), and for an event text matched only by such records every returned
record is one of them; and the feed parser (`extractVendorProduct`,
nvd.go) produces exactly such records — an entry whose serialized
configuration contains no `cpe:2.3:` identifier keeps its zero-value
(empty) vendor and product. -/
theorem findRelevant_empty_vendor_pathology (items : List CVE)
    (text : String) (item : CVE) (cfg : String) :
    (∀ c : CVE, c.Vendor = "" ∨ c.Product = "" →
       ∀ t : List Char, cveMatches t c = true)
    ∧ ((∃ c ∈ items, c.Vendor = "" ∨ c.Product = "") →
        items.filter (cveMatches (lowerChars text.data)) ≠ []
        ∧ FindRelevantCVEs items text =
            (items.filter (cveMatches (lowerChars text.data))).take 5
        ∧ FindRelevantCVEs items text ≠ []
        ∧ ((∀ c ∈ items, cveMatches (lowerChars text.data) c = true →
              c.Vendor = "" ∨ c.Product = "") →
           ∀ c ∈ FindRelevantCVEs items text,
             c.Vendor = "" ∨ c.Product = ""))
    ∧ (indexOfSub ("cpe:2.3:".data) cfg.data = none →
        extractVendorProduct item cfg = item) := by
  have hmatch : ∀ c : CVE, c.Vendor = "" ∨ c.Product = "" →
      ∀ t : List Char, cveMatches t c = true := by
    intro c hc t
    unfold cveMatches
    rcases hc with h | h
    · rw [h]
      simp [lowerChars, containsSub_nil_needle]
    · rw [h]
      simp [lowerChars, containsSub_nil_needle]
  refine ⟨hmatch, ?_, ?_⟩
  · rintro ⟨c, hcmem, hc⟩
    have hcfilter : c ∈ items.filter (cveMatches (lowerChars text.data)) :=
      List.mem_filter.mpr ⟨hcmem, hmatch c hc (lowerChars text.data)⟩
    have hres : items.filter (cveMatches (lowerChars text.data)) ≠ [] :=
      List.ne_nil_of_mem hcfilter
    have hitems : items ≠ [] := List.ne_nil_of_mem hcmem
    have hval : FindRelevantCVEs items text =
        (items.filter (cveMatches (lowerChars text.data))).take 5 := by
      by_cases h5 :
          (items.filter (cveMatches (lowerChars text.data))).length > 5
      · simp [FindRelevantCVEs, hitems, hres, h5]
      · have hle :
            (items.filter (cveMatches (lowerChars text.data))).length ≤ 5 :=
          by omega
        simp [FindRelevantCVEs, hitems, hres, h5,
              List.take_of_length_le hle]
    have hlenf : 0 <
        (items.filter (cveMatches (lowerChars text.data))).length :=
      List.length_pos.mpr hres
    refine ⟨hres, hval, ?_, ?_⟩
    · intro hnil
      have : (FindRelevantCVEs items text).length = 0 := by rw [hnil]; rfl
      rw [hval, List.length_take] at this
      omega
    · intro honly c2 hc2
      rw [hval] at hc2
      have hc2f := List.mem_of_mem_take hc2
      have := List.mem_filter.mp hc2f
      exact honly c2 this.1 this.2
  · intro hidx
    unfold extractVendorProduct
    rw [hidx]

theorem findRelevant_empty_vendor_pathology_witness :
    (∃ c ∈ ([⟨"E", "", "", 0, "", "p"⟩,
             ⟨"N", "", "", 0, "acme", "router"⟩] : List CVE),
       c.Vendor = "" ∨ c.Product = "")
    ∧ FindRelevantCVEs
        [⟨"E", "", "", 0, "", "p"⟩, ⟨"N", "", "", 0, "acme", "router"⟩]
        ("totally unrelated event") =
      (([⟨"E", "", "", 0, "", "p"⟩,
         ⟨"N", "", "", 0, "acme", "router"⟩] : List CVE).filter
        (cveMatches (lowerChars ("totally unrelated event").data))).take 5
    ∧ FindRelevantCVEs
        [⟨"E", "", "", 0, "", "p"⟩, ⟨"N", "", "", 0, "acme", "router"⟩]
        ("totally unrelated event") ≠ [] :=
  ⟨by decide,
   ((findRelevant_empty_vendor_pathology
       [⟨"E", "", "", 0, "", "p"⟩, ⟨"N", "", "", 0, "acme", "router"⟩]
       ("totally unrelated event") ⟨"", "", "", 0, "", ""⟩ "").2.1
     (by decide)).2.1,
   ((findRelevant_empty_vendor_pathology
       [⟨"E", "", "", 0, "", "p"⟩, ⟨"N", "", "", 0, "acme", "router"⟩]
       ("totally unrelated event") ⟨"", "", "", 0, "", ""⟩ "").2.1
     (by decide)).2.2.1⟩

/-- Closed form of rotation: starting from an initialized pool and a
valid cursor, the `t`-th consecutive `getNextAPIKey` call dispenses the
trimmed key at index `(i + t) mod N`. -/
theorem rotationKeys_closed_form (pool : List String) :
    ∀ n i, pool ≠ [] → i < pool.length →
    rotationKeys pool i n =
      (List.range n).map
        (fun t => trimSpace ((pool.getD ((i + t) % pool.length)) "")) := by
  intro n
  induction n with
  | zero => intro i _ _; rfl
  | succ n ih =>
    intro i hp hi
    have hN : 0 < pool.length := List.length_pos.mpr hp
    have hne : pool.isEmpty = false := by
      cases pool with
      | nil => exact absurd rfl hp
      | cons a t => rfl
    have hstep : (getNextAPIKey pool i) "" =
        Except.ok (trimSpace ((pool.getD i) ""), pool,
                   (i + 1) % pool.length) := by
      simp [getNextAPIKey, hne]
    show (match (getNextAPIKey pool i) "" with
      | Except.error _ => []
      | Except.ok (k, pool1, i1) => k :: rotationKeys pool1 i1 n) = _
    rw [hstep]
    show trimSpace ((pool.getD i) "") ::
        rotationKeys pool ((i + 1) % pool.length) n = _
    rw [ih ((i + 1) % pool.length) hp (Nat.mod_lt _ hN)]
    rw [List.range_succ_eq_map, List.map_cons]
    congr 1
    · simp [Nat.mod_eq_of_lt hi]
    · rw [List.map_map]
      apply List.map_congr_left
      intro t _
      simp only [Function.comp]
      rw [Nat.mod_add_mod]
      have h3 : i + 1 + t = i + Nat.succ t := by omega
      rw [h3]

/-- C6: deterministic round-robin with wrap: for every initialized
credential pool of size N ≥ 1 and valid cursor, N+1 consecutive
`getNextAPIKey` calls dispense the (trimmed) key of every pool position
at least once, and the (N+1)-th call dispenses the same key as the first
call. -/
theorem getNextAPIKey_round_robin (pool : List String) (i : Nat)
    (hp : pool ≠ []) (hi : i < pool.length) :
    (∀ j, j < pool.length →
       trimSpace ((pool.getD j) "") ∈ rotationKeys pool i (pool.length + 1))
    ∧ ((rotationKeys pool i (pool.length + 1)).getD pool.length) "" =
      ((rotationKeys pool i (pool.length + 1)).getD 0) "" := by
  have hN : 0 < pool.length := List.length_pos.mpr hp
  have hcf := rotationKeys_closed_form pool (pool.length + 1) i hp hi
  constructor
  · intro j hj
    rw [hcf]
    refine List.mem_map.mpr
      ⟨if i ≤ j then j - i else j + pool.length - i,
       List.mem_range.mpr ?_, ?_⟩
    · by_cases hij : i ≤ j
      · rw [if_pos hij]; omega
      · rw [if_neg hij]; omega
    · have hidx : (i + if i ≤ j then j - i else j + pool.length - i) %
          pool.length = j := by
        by_cases hij : i ≤ j
        · rw [if_pos hij]
          have h1 : i + (j - i) = j := by omega
          rw [h1, Nat.mod_eq_of_lt hj]
        · rw [if_neg hij]
          have h1 : i + (j + pool.length - i) = j + pool.length := by omega
          rw [h1, Nat.add_mod_right, Nat.mod_eq_of_lt hj]
      rw [hidx]
  · rw [hcf]
    rw [List.getD_eq_getElem _ _ (by simp), List.getD_eq_getElem _ _ (by simp)]
    simp only [List.getElem_map, List.getElem_range]
    have h1 : (i + pool.length) % pool.length = i := by
      rw [Nat.add_mod_right, Nat.mod_eq_of_lt hi]
    have h2 : (i + 0) % pool.length = i := by
      rw [Nat.add_zero, Nat.mod_eq_of_lt hi]
    rw [h1, h2]

theorem getNextAPIKey_round_robin_witness :
    (["k1 ", " k2"] : List String) ≠ []
    ∧ 0 < (["k1 ", " k2"] : List String).length
    ∧ ((∀ j, j < (["k1 ", " k2"] : List String).length →
         trimSpace (((["k1 ", " k2"] : List String).getD j) "") ∈
           rotationKeys ["k1 ", " k2"] 0
             ((["k1 ", " k2"] : List String).length + 1))
       ∧ ((rotationKeys ["k1 ", " k2"] 0
            ((["k1 ", " k2"] : List String).length + 1)).getD
            (["k1 ", " k2"] : List String).length) "" =
         ((rotationKeys ["k1 ", " k2"] 0
            ((["k1 ", " k2"] : List String).length + 1)).getD 0) "") :=
  ⟨by decide, by decide,
   getNextAPIKey_round_robin ["k1 ", " k2"] 0 (by decide) (by decide)⟩

theorem saveCache_failure_silent_witness :
    (EnsureRecentNetworkCVEs none []
        1000 (Except.ok [⟨"A", "", "", 98, "cisco", "ios"⟩]) false).result =
      Except.ok ()
    ∧ (EnsureRecentNetworkCVEs none []
        1000 (Except.ok [⟨"A", "", "", 98, "cisco", "ios"⟩]) false).file =
      none
    ∧ (EnsureRecentNetworkCVEs none []
        1000 (Except.ok [⟨"A", "", "", 98, "cisco", "ios"⟩]) false).mem =
      (if filterNetworkCVEs [⟨"A", "", "", 98, "cisco", "ios"⟩] = []
       then [⟨"A", "", "", 98, "cisco", "ios"⟩]
       else filterNetworkCVEs [⟨"A", "", "", 98, "cisco", "ios"⟩])
    ∧ (EnsureRecentNetworkCVEs
        ((EnsureRecentNetworkCVEs none []
           1000 (Except.ok [⟨"A", "", "", 98, "cisco", "ios"⟩]) false).file)
        ((EnsureRecentNetworkCVEs none []
           1000 (Except.ok [⟨"A", "", "", 98, "cisco", "ios"⟩]) false).mem)
        1060 (Except.error ("feed down")) true).fetched = true :=
  saveCache_failure_silent none [] 1000 1060
    [⟨"A", "", "", 98, "cisco", "ios"⟩] (Except.error ("feed down")) true
    (fun _ h => Option.noConfusion h) (by decide)
